import Mathlib

/-!
Verification development for the kof-slide repository: two command-line
utilities wrapping an external slide renderer. The batch script
(scripts/build-all.mjs) discovers deck directories under slides/, filters
them by include/exclude patterns, builds each deck as a subprocess and
writes a landing page; the dev script launches the renderer for one deck.

JavaScript strings are embedded as lists of characters. Stateful control
flow (spawning subprocesses, writing the index, exiting) is embedded as a
pure function producing the list of observable events in order.
-/

namespace KofSlide

/-- JS strings are modelled as lists of characters. -/
abbrev Str := List Char

/-! ## Pattern matcher (build-all.mjs, lines 22-36) -/

/-- Embeds `pattern.split('*')` from build-all.mjs line 28: JS
`String.prototype.split` with a one-character separator. -/
def splitOnStar : Str → List Str
  | [] => [[]]
  | c :: cs =>
    if c = '*' then [] :: splitOnStar cs
    else
      match splitOnStar cs with
      | [] => [[c]]
      | s :: rest => (c :: s) :: rest

/-- The ECMAScript LineTerminator characters. The regex of build-all.mjs
line 25 is built with no flags, so its `.` matches any character EXCEPT
these four, and its `^` and `$` anchor the whole string. -/
def isLineTerm (c : Char) : Bool :=
  c == '\n' || c == '\r' || c == '\u2028' || c == '\u2029'

/-- Embeds the anchored regex tail `(.*s₁)(.*s₂)...(.*sₖ)$` built on
build-all.mjs lines 25-32: each literal segment is matched literally
(all regex metacharacters are escaped on line 29), and each `.*` may
consume any possibly-empty run of characters other than line
terminators (the regex has no s-flag). `matchMid segs t` decides
whether `t` is `w₁ ++ s₁ ++ w₂ ++ s₂ ++ ... ++ wₖ ++ sₖ` for some
line-terminator-free runs `wᵢ`, by trying every split point. -/
def matchMid : List Str → Str → Bool
  | [], t => t.isEmpty
  | p :: rest, t =>
    (List.range (t.length + 1)).any fun i =>
      (t.take i).all (fun c => !isLineTerm c) &&
      ((t.drop i).take p.length == p) && matchMid rest ((t.drop i).drop p.length)

/-- Embeds the full anchored regex `^s₀.*s₁...*sₖ$` of build-all.mjs
lines 25-33 applied to the segments of `pattern.split('*')`. -/
def matchSegs : List Str → Str → Bool
  | [], n => n.isEmpty
  | p :: rest, n => (n.take p.length == p) && matchMid rest (n.drop p.length)

/-- Embeds the source function `matches` (build-all.mjs lines 22-36); renamed because `matches` is a reserved word in Lean. A falsy (empty) pattern
returns true; a pattern containing `*` is tested against the anchored
escaped regex; otherwise strict equality. -/
def matchesGlob (name pattern : Str) : Bool :=
  if pattern = [] then true
  else if pattern.contains '*' then matchSegs (splitOnStar pattern) name
  else name == pattern

/-- Decomposition predicate for the regex tail as the CLAIM words it:
`t` splits as `w₁ ++ s₁ ++ ... ++ wₖ ++ sₖ` with arbitrary (possibly
empty) runs `wᵢ` of ANY characters before each literal segment. -/
def DecompMid : List Str → Str → Prop
  | [], t => t = []
  | p :: rest, t => ∃ w u, t = w ++ p ++ u ∧ DecompMid rest u

/-- Decomposition of a name into the literal segments of a pattern as
the claim words it, each `*` standing for an arbitrary possibly-empty
run of characters: `name = s₀ ++ w₁ ++ s₁ ++ ... ++ wₖ ++ sₖ`. The
program is stricter: see `DecomposesNoLT`. -/
def Decomposes : List Str → Str → Prop
  | [], n => n = []
  | p :: rest, n => ∃ t, n = p ++ t ∧ DecompMid rest t

/-- Decomposition predicate for the regex tail with the actual JS dot
semantics: each run `wᵢ` contains no line terminator. -/
def DecompMidNoLT : List Str → Str → Prop
  | [], t => t = []
  | p :: rest, t =>
    ∃ w u, (∀ c ∈ w, isLineTerm c = false) ∧ t = w ++ p ++ u ∧ DecompMidNoLT rest u

/-- Decomposition of a name into the literal segments of a pattern with
the actual JS dot semantics: `name = s₀ ++ w₁ ++ s₁ ++ ... ++ wₖ ++ sₖ`
where each `wᵢ` is a possibly-empty run of non-line-terminator
characters. -/
def DecomposesNoLT : List Str → Str → Prop
  | [], n => n = []
  | p :: rest, n => ∃ t, n = p ++ t ∧ DecompMidNoLT rest t

/-! ## Selector (build-all.mjs, lines 37-38) -/

/-- Embeds `shouldSkip` (build-all.mjs line 37). -/
def shouldSkip (skip : List Str) (name : Str) : Bool :=
  skip.any fun p => matchesGlob name p

/-- Embeds `isOnly` (build-all.mjs line 38). -/
def isOnly (only : List Str) (name : Str) : Bool :=
  only.isEmpty || only.any fun p => matchesGlob name p

/-! ## Entry resolution (build-all.mjs lines 41-49; dev script lines 21-31) -/

/-- The candidate entry filenames of build-all.mjs line 42 and dev script
line 21, in priority order. -/
def candidates : List Str :=
  ["slides.md".data, "index.md".data, "deck.md".data, "presentation.md".data]

/-- Embeds `f.endsWith('.md')`. -/
def endsWithMd (f : Str) : Bool := f.drop (f.length - 3) == ".md".data

/-- Embeds `findEntry` (build-all.mjs lines 41-49): first existing
candidate, else the first file of the directory listing ending in `.md`,
else none. A directory is modelled by its file listing in enumeration
order; existence is membership. The dev script (lines 21-31) performs the
same computation with `find` in place of `filter`+`[0]`. -/
def findEntry (files : List Str) : Option Str :=
  match candidates.find? (fun c => files.contains c) with
  | some c => some c
  | none => (files.filter endsWithMd).head?

/-- Entry resolution as worded by the specification: check the four
canonical names in order, else the first `.md` file in enumeration order,
else no entry. -/
def findEntrySpec (files : List Str) : Option Str :=
  if "slides.md".data ∈ files then some "slides.md".data
  else if "index.md".data ∈ files then some "index.md".data
  else if "deck.md".data ∈ files then some "deck.md".data
  else if "presentation.md".data ∈ files then some "presentation.md".data
  else files.find? endsWithMd

/-! ## Discovery (build-all.mjs, lines 52-73) -/

/-- One entry of `readdirSync(SLIDES_DIR)`: its name, whether `statSync`
reports a directory, and (for directories) its own file listing. -/
structure DirEntry where
  name : Str
  isDir : Bool
  files : List Str
deriving DecidableEq

/-- A discovered deck as built on build-all.mjs lines 68-72. -/
structure Deck where
  name : Str
  entry : Option Str
deriving DecidableEq

/-- The filter predicate of build-all.mjs lines 57-67: a directory, not
hidden (leading `.` or `_`), selected by the include/exclude patterns,
and with a resolvable markdown entry. -/
def deckFilter (only skip : List Str) (e : DirEntry) : Bool :=
  e.isDir && !(e.name.head? == some '.') && !(e.name.head? == some '_')
    && isOnly only e.name && !shouldSkip skip e.name && (findEntry e.files).isSome

/-- Embeds `discoverDecks` (build-all.mjs lines 52-73) restricted to the
case where the slides directory exists; the missing-directory branch is
handled by `batchMain`. -/
def discoverDecks (only skip : List Str) (entries : List DirEntry) : List Deck :=
  (entries.filter (deckFilter only skip)).map fun e => ⟨e.name, findEntry e.files⟩

/-- The names of the selected decks in discovery order. -/
def selectedNames (only skip : List Str) (entries : List DirEntry) : List Str :=
  (discoverDecks only skip entries).map (·.name)

/-! ## Batch control flow (build-all.mjs, lines 75-86 and 142-164) -/

/-- Observable events of either script: spawning a renderer subprocess,
writing dist/index.html, printing a diagnostic to the error stream, and
terminating with an exit code. -/
inductive BEvent where
  | spawn (name : Str)
  | writeIndex
  | errorOut
  | exitev (code : Nat)
deriving DecidableEq

/-- Embeds the sequential build loop of build-all.mjs lines 154-156
together with `run` (lines 75-86) and the surrounding try/catch
(lines 143-163): each deck spawns one subprocess; on the first non-zero
exit the rejection is caught, a diagnostic is printed and the process
exits 1; if all succeed the index is written and the script finishes
with exit code 0. `result d` tells whether the subprocess for deck `d`
exits zero. -/
def buildLoop (result : Str → Bool) : List Str → List BEvent
  | [] => [.writeIndex, .exitev 0]
  | d :: ds => .spawn d :: (if result d then buildLoop result ds else [.errorOut, .exitev 1])

/-- Embeds the batch entry point (build-all.mjs lines 142-164, with the
missing-directory branch of lines 53-56): `slides = none` models a
missing slides/ directory (diagnostic, exit 1); an empty selection exits
0 without building; otherwise the build loop runs over the selected
decks. Filesystem writes (`mkdirSync`, `writeFileSync`) are assumed to
succeed. -/
def batchMain (slides : Option (List DirEntry)) (only skip : List Str)
    (result : Str → Bool) : List BEvent :=
  match slides with
  | none => [.errorOut, .exitev 1]
  | some entries =>
    let decks := discoverDecks only skip entries
    if decks.isEmpty then [.exitev 0]
    else buildLoop result (decks.map (·.name))

/-! ## Dev flow (dev script, lines 9-42) -/

/-- Embeds `process.argv[2] || process.env.DECK` (dev script line 9):
an absent or empty argument falls back to the environment variable. -/
def resolvedDeckName (argv2 envDeck : Option Str) : Option Str :=
  match argv2 with
  | some v => if v = [] then envDeck else some v
  | none => envDeck

/-- Embeds the dev script (lines 9-40): resolve the deck name (error if
missing or empty), look the deck directory up (error if absent), resolve
its entry (error if none), then spawn the renderer for the entry. The
slides directory is modelled as an association list from deck name to
file listing. -/
def devMain (argv2 envDeck : Option Str) (fs : List (Str × List Str)) : List BEvent :=
  match resolvedDeckName argv2 envDeck with
  | none => [.errorOut, .exitev 1]
  | some name =>
    if name = [] then [.errorOut, .exitev 1]
    else
      match fs.lookup name with
      | none => [.errorOut, .exitev 1]
      | some files =>
        match findEntry files with
        | none => [.errorOut, .exitev 1]
        | some entry => [.spawn entry]

/-- Embeds the close handler `child.on('close', (code) => process.exit(code))`
(dev script line 42) together with the documented Node.js semantics of
`process.exit`: an integer argument becomes the process exit status, and
a `null` argument (a child terminated by a signal) is treated like an
omitted argument, so the process exits with the default status 0. -/
def devExitCode (childCode : Option Nat) : Nat := childCode.getD 0

/-! ## Child environment (build-all.mjs, line 81) -/

/-- The default heap hint of build-all.mjs line 81. -/
def defaultNodeOptions : Str := "--max_old_space_size=4096".data

/-- Embeds `process.env.NODE_OPTIONS || '--max_old_space_size=4096'`
(build-all.mjs line 81): the NODE_OPTIONS value the child environment
receives, given the invoking environment value (`none` = unset). The
`extraEnv` spread is empty for every `buildDeck` call, so it never
overrides this entry. -/
def childNodeOptions (parent : Option Str) : Str :=
  match parent with
  | none => defaultNodeOptions
  | some v => if v = [] then defaultNodeOptions else v

/-! ## Title extraction (build-all.mjs, lines 104-140) -/

/-- Whitespace recognised by the model: the ASCII whitespace characters
together with the line terminators — a subset of the JS `\s` class and
of `String.prototype.trim`, which additionally cover exotic Unicode
spaces. Unlike the matcher regex, the title regexes carry the m flag
and run against the raw text, so their `\s` classes also consume line
terminators. -/
def isWsChar (c : Char) : Bool :=
  c == ' ' || c == '\t' || c == '\u000B' || c == '\u000C' || isLineTerm c

/-- Embeds `String.prototype.trim`. -/
def trimChars (s : Str) : Str :=
  ((s.dropWhile isWsChar).reverse.dropWhile isWsChar).reverse

/-- The literal `title:` of the front-matter regex. -/
def titleKey : Str := "title:".data

/-- The trimmed capture of `\s*(.+)\s*$` — the part of the front-matter
regex of build-all.mjs line 113 after the `title:` literal — matched
greedily against `s`, the raw text from just after `title:` to the end
of the document. The greedy `\s*` consumes the maximal whitespace run,
which may cross line terminators; if a character remains, `(.+)`
captures the maximal run of non-line-terminator characters and `$` then
holds at the end or before the next line terminator. If the whole of
`s` is whitespace, the engine backtracks `\s*` and `(.+)` captures
whitespace iff `s` has a character the dot can match (a whitespace
character that is not a line terminator); such a capture trims to the
empty string. Otherwise there is no match here. -/
def fmCapture (s : Str) : Option Str :=
  let rest := s.dropWhile isWsChar
  if rest ≠ [] then some (trimChars (rest.takeWhile fun c => !isLineTerm c))
  else if s.any (fun c => !isLineTerm c) then some [] else none

/-- The trimmed capture of `\s+(.+)$` — the part of the heading regex
of build-all.mjs line 114 after the `#` — against `s`, the raw text
after the `#`: as in `fmCapture`, except that `\s+` requires at least
one leading whitespace character. -/
def h1Capture (s : Str) : Option Str :=
  match s with
  | [] => none
  | c :: cs =>
    if isWsChar c then
      let rest := cs.dropWhile isWsChar
      if rest ≠ [] then some (trimChars (rest.takeWhile fun ch => !isLineTerm ch))
      else if cs.any (fun ch => !isLineTerm ch) then some [] else none
    else none

/-- Embeds `raw.match(/.../m)?.[1]?.trim()` for the front-matter regex
of build-all.mjs line 113: scan the raw text left to right and return
the trimmed capture of the first (leftmost) match. A match can start
exactly at an occurrence of `title:` preceded only by whitespace back
to some line start — the multiline `^` matches at the start of the text
and after every line terminator, and the leading `\s*` may span lines —
whose tail admits `fmCapture`. The boolean argument tracks whether the
current position is preceded only by whitespace since a line start. -/
def fmScan : Str → Bool → Option Str
  | [], _ => none
  | c :: cs, atStart =>
    if atStart && ((c :: cs).take 6 == titleKey) then
      match fmCapture ((c :: cs).drop 6) with
      | some v => some v
      | none => fmScan cs (isLineTerm c || (atStart && isWsChar c))
    else fmScan cs (isLineTerm c || (atStart && isWsChar c))

/-- Embeds `raw.match(/^#\s+(.+)$/m)?.[1]?.trim()` of build-all.mjs
line 114: the trimmed capture of the first match, scanning for a `#`
standing exactly at a line start whose tail admits `h1Capture`. The
boolean argument tracks whether the current position is a line start. -/
def h1Scan : Str → Bool → Option Str
  | [], _ => none
  | c :: cs, atStart =>
    if atStart && c = '#' then
      match h1Capture cs with
      | some v => some v
      | none => h1Scan cs (isLineTerm c)
    else h1Scan cs (isLineTerm c)

/-- Embeds the JS truthiness chain `a || b` on strings: an empty string
is falsy. An absent regex match is modelled as the empty string, which
the chain treats identically. -/
def jsStrOr (a b : Str) : Str := if a = [] then b else a

/-- Embeds the title computation of build-all.mjs lines 110-116 for one
deck: on a read failure (`content = none`, the catch branch) the deck
directory name; otherwise `fmTitle || h1 || name` where `fmTitle` and
`h1` are the trimmed captures of the first match of each regex in the
raw entry text. -/
def extractTitle (name : Str) (content : Option Str) : Str :=
  match content with
  | none => name
  | some raw =>
    let fm := (fmScan raw true).getD []
    let h1 := (h1Scan raw true).getD []
    jsStrOr fm (jsStrOr h1 name)

/-- Title derivation as worded by the claim: the value of the first
front-matter match, else the value of the first heading match, else the
directory name — with no falsy fall-through for matched values; the
directory name on a read failure. -/
def claimTitle (name : Str) (content : Option Str) : Str :=
  match content with
  | none => name
  | some raw =>
    match fmScan raw true with
    | some v => v
    | none =>
      match h1Scan raw true with
      | some h => h
      | none => name

/-- Embeds the per-deck item generation of build-all.mjs lines 107-119:
one title per built deck, reading each entry document through `reader`
(`none` models a read failure for that deck). -/
def generateItems (decks : List Deck) (reader : Str → Option Str) : List Str :=
  decks.map fun d => extractTitle d.name (reader d.name)

end KofSlide

namespace KofSlide

/-! ## Helper lemmas -/

theorem matchMid_iff_decompMidNoLT (segs : List Str) : ∀ t : Str,
    matchMid segs t = true ↔ DecompMidNoLT segs t := by
  induction segs with
  | nil =>
    intro t
    simp [matchMid, DecompMidNoLT, List.isEmpty_iff]
  | cons p rest ih =>
    intro t
    constructor
    · intro h
      simp only [matchMid, List.any_eq_true, List.mem_range, Bool.and_eq_true,
        beq_iff_eq, List.all_eq_true] at h
      obtain ⟨i, -, ⟨hw, hpre⟩, hmid⟩ := h
      refine ⟨t.take i, (t.drop i).drop p.length, ?_, ?_, (ih _).mp hmid⟩
      · intro c hc
        simpa using hw c hc
      · conv_lhs => rw [← List.take_append_drop i t,
          ← List.take_append_drop p.length (t.drop i)]
        rw [hpre, ← List.append_assoc]
    · rintro ⟨w, u, hw, rfl, hd⟩
      simp only [matchMid, List.any_eq_true, List.mem_range, Bool.and_eq_true,
        beq_iff_eq, List.all_eq_true]
      refine ⟨w.length, by simp; omega, ⟨?_, ?_⟩, ?_⟩
      · intro c hc
        rw [List.append_assoc, List.take_left] at hc
        simpa using hw c hc
      · rw [List.append_assoc, List.drop_left, List.take_left]
      · rw [List.append_assoc, List.drop_left, List.drop_left]
        exact (ih u).mpr hd

theorem matchSegs_iff_decomposesNoLT (segs : List Str) (n : Str) :
    matchSegs segs n = true ↔ DecomposesNoLT segs n := by
  cases segs with
  | nil => simp [matchSegs, DecomposesNoLT, List.isEmpty_iff]
  | cons p rest =>
    simp only [matchSegs, DecomposesNoLT, Bool.and_eq_true, beq_iff_eq]
    constructor
    · rintro ⟨hpre, hmid⟩
      refine ⟨n.drop p.length, ?_, (matchMid_iff_decompMidNoLT rest _).mp hmid⟩
      conv_lhs => rw [← List.take_append_drop p.length n]
      rw [hpre]
    · rintro ⟨t, rfl, hd⟩
      rw [List.take_left, List.drop_left]
      exact ⟨rfl, (matchMid_iff_decompMidNoLT rest t).mpr hd⟩

/-! ## Claim C1: anchored glob matching -/

/-- Claim C1 (counterexample): two violations of the claim as stated.
The pattern `""` contains no `*`, yet `matches('x', '')` returns `true`
through the falsy-pattern short circuit (build-all.mjs line 23), so a
star-free pattern does not match only the identical name. And for the
pattern `a*b`, the name consisting of `a`, a line feed and `b` does
decompose into the literal segments `a` and `b` around a run of
characters, yet the matcher rejects it, because the regex `.` of the
flagless source regex cannot match a line terminator; for the same
reason the pattern `*` does not match that name either. -/
theorem matchesGlob_claim_cex :
    (("".data : Str).contains '*' = false ∧
     matchesGlob "x".data "".data = true ∧
     ("x".data : Str) ≠ "".data) ∧
    (("a*b".data : Str).contains '*' = true ∧
     Decomposes (splitOnStar "a*b".data) "a\nb".data ∧
     matchesGlob "a\nb".data "a*b".data = false) ∧
    matchesGlob "a\nb".data "*".data = false := by
  refine ⟨⟨by decide, by decide, by decide⟩, ⟨by decide, ?_, by decide⟩, by decide⟩
  have h : splitOnStar "a*b".data = [['a'], ['b']] := by decide
  rw [h]
  exact ⟨['\n', 'b'], rfl, ['\n'], [], rfl, rfl⟩

/-- Claim C1 (amended): for every NONEMPTY pattern the matcher is
anchored: a pattern containing `*` matches a name iff the name
decomposes into the literal segments of the pattern in order, each `*`
standing for a possibly-empty run of NON-LINE-TERMINATOR characters
(the flagless regex dot), and a star-free pattern matches only the
identical name; `draft-*` matches `draft-intro` and `draft-` but not
`my-draft-intro`, and `*` matches every name free of line terminators.
(The empty pattern, excluded here, matches every name.) -/
theorem matchesGlob_anchored_spec :
    (∀ name pattern : Str, pattern ≠ [] →
      (pattern.contains '*' = true →
        (matchesGlob name pattern = true ↔
          DecomposesNoLT (splitOnStar pattern) name)) ∧
      (pattern.contains '*' = false →
        (matchesGlob name pattern = true ↔ name = pattern))) ∧
    matchesGlob "draft-intro".data "draft-*".data = true ∧
    matchesGlob "draft-".data "draft-*".data = true ∧
    matchesGlob "my-draft-intro".data "draft-*".data = false ∧
    (∀ name : Str, (∀ c ∈ name, isLineTerm c = false) →
      matchesGlob name "*".data = true) := by
  refine ⟨?_, by decide, by decide, by decide, ?_⟩
  · intro name pattern hne
    constructor
    · intro hstar
      rw [matchesGlob, if_neg hne, if_pos hstar]
      exact matchSegs_iff_decomposesNoLT _ _
    · intro hnostar
      rw [matchesGlob, if_neg hne, hnostar]
      simp
  · intro name hname
    have h : splitOnStar "*".data = [[], []] := by decide
    show matchesGlob name "*".data = true
    rw [matchesGlob, if_neg (by decide), if_pos (by decide), h]
    exact (matchSegs_iff_decomposesNoLT _ _).mpr
      ⟨name, by simp, name, [], hname, by simp, rfl⟩

/-- Witness for the amended claim C1 at concrete inputs. -/
theorem matchesGlob_anchored_spec_witness :
    (matchesGlob "ab".data "a*".data = true ↔
      DecomposesNoLT (splitOnStar "a*".data) "ab".data) ∧
    (matchesGlob "ab".data "ab".data = true ↔ ("ab".data : Str) = "ab".data) ∧
    matchesGlob "abc".data "*".data = true :=
  ⟨(matchesGlob_anchored_spec.1 "ab".data "a*".data (by decide)).1 (by decide),
   (matchesGlob_anchored_spec.1 "ab".data "ab".data (by decide)).2 (by decide),
   matchesGlob_anchored_spec.2.2.2.2 "abc".data (by decide)⟩

end KofSlide

namespace KofSlide

theorem isOnly_eq_true_iff (only : List Str) (nm : Str) :
    isOnly only nm = true ↔ (only = [] ∨ ∃ p ∈ only, matchesGlob nm p = true) := by
  simp [isOnly, List.any_eq_true, List.isEmpty_iff]

theorem shouldSkip_eq_false_iff (skip : List Str) (nm : Str) :
    shouldSkip skip nm = false ↔ (∀ p ∈ skip, matchesGlob nm p = false) := by
  simp only [shouldSkip]
  rw [← Bool.not_eq_true, List.any_eq_true]
  push_neg
  simp

/-! ## Claim C2: include/exclude selection -/

/-- Claim C2 (confirmed): relative to the unfiltered candidate set
(discovery with empty include and exclude lists), a deck is retained iff
the include list is empty or its name matches some include pattern, and
its name matches no exclude pattern; the retained decks keep the
discovery order (sublist of the candidate list). -/
theorem discoverDecks_selection_spec :
    ∀ (entries : List DirEntry) (only skip : List Str),
    (discoverDecks only skip entries).Sublist (discoverDecks [] [] entries) ∧
    ∀ d : Deck, d ∈ discoverDecks only skip entries ↔
      (d ∈ discoverDecks [] [] entries ∧
       (only = [] ∨ ∃ p ∈ only, matchesGlob d.name p = true) ∧
       (∀ p ∈ skip, matchesGlob d.name p = false)) := by
  intro entries only skip
  constructor
  · apply List.Sublist.map
    apply List.monotone_filter_right
    intro e he
    simp only [deckFilter, Bool.and_eq_true] at he ⊢
    refine ⟨⟨⟨⟨⟨he.1.1.1.1.1, he.1.1.1.1.2⟩, he.1.1.1.2⟩, by simp [isOnly]⟩,
      by simp [shouldSkip]⟩, he.2⟩
  · intro d
    simp only [discoverDecks, List.mem_map, List.mem_filter, deckFilter,
      Bool.and_eq_true]
    constructor
    · rintro ⟨e, ⟨he, hf⟩, rfl⟩
      obtain ⟨⟨⟨⟨⟨hdir, hdot⟩, hund⟩, honly⟩, hskip⟩, hent⟩ := hf
      refine ⟨⟨e, ⟨he, ⟨⟨⟨⟨hdir, hdot⟩, hund⟩, by simp [isOnly]⟩,
        by simp [shouldSkip]⟩, hent⟩, rfl⟩, ?_, ?_⟩
      · exact (isOnly_eq_true_iff only e.name).mp honly
      · rw [Bool.not_eq_true'] at hskip
        exact (shouldSkip_eq_false_iff skip e.name).mp hskip
    · rintro ⟨⟨e, ⟨he, hf⟩, rfl⟩, honly, hskip⟩
      obtain ⟨⟨⟨⟨⟨hdir, hdot⟩, hund⟩, -⟩, -⟩, hent⟩ := hf
      refine ⟨e, ⟨he, ⟨⟨⟨⟨hdir, hdot⟩, hund⟩,
        (isOnly_eq_true_iff only e.name).mpr honly⟩, ?_⟩, hent⟩, rfl⟩
      rw [Bool.not_eq_true']
      exact (shouldSkip_eq_false_iff skip e.name).mpr hskip

/-- Witness for claim C2: with candidate decks a and old-1, include list
empty and exclude list [old-*], deck a is retained. -/
theorem discoverDecks_selection_spec_witness :
    (⟨"a".data, some "slides.md".data⟩ : Deck) ∈
      discoverDecks [] ["old-*".data]
        [⟨"a".data, true, ["slides.md".data]⟩,
         ⟨"old-1".data, true, ["slides.md".data]⟩] :=
  ((discoverDecks_selection_spec
      [⟨"a".data, true, ["slides.md".data]⟩,
       ⟨"old-1".data, true, ["slides.md".data]⟩]
      [] ["old-*".data]).2 _).mpr
    ⟨by decide, Or.inl rfl, by decide⟩

end KofSlide

namespace KofSlide

theorem head?_filter_eq_find? {α : Type} (p : α → Bool) :
    ∀ l : List α, (l.filter p).head? = l.find? p := by
  intro l
  induction l with
  | nil => rfl
  | cons a l ih => by_cases h : p a <;> simp [List.filter_cons, List.find?, h, ih]

theorem findEntry_eq_findEntrySpec (files : List Str) :
    findEntry files = findEntrySpec files := by
  rw [findEntry, findEntrySpec, candidates]
  by_cases h1 : "slides.md".data ∈ files <;>
  by_cases h2 : "index.md".data ∈ files <;>
  by_cases h3 : "deck.md".data ∈ files <;>
  by_cases h4 : "presentation.md".data ∈ files <;>
    simp [List.find?, List.contains, List.elem_iff, h1, h2, h3, h4,
      head?_filter_eq_find?]

/-! ## Claim C3: entry-file resolution -/

/-- Claim C3 (confirmed): entry resolution returns the first existing
file among slides.md, index.md, deck.md, presentation.md in that order
(so slides.md wins over index.md), else the first `.md` file in
enumeration order, else no entry; a directory without an entry is
excluded from batch discovery and makes the dev flow fail. -/
theorem findEntry_priority_spec :
    (∀ files : List Str, findEntry files = findEntrySpec files) ∧
    (∀ files : List Str, "slides.md".data ∈ files →
      findEntry files = some "slides.md".data) ∧
    (∀ files : List Str, (∀ f ∈ files, endsWithMd f = false) →
      findEntry files = none) ∧
    (∀ (e : DirEntry) (only skip : List Str), findEntry e.files = none →
      discoverDecks only skip [e] = []) ∧
    (∀ (name : Str) (files : List Str), findEntry files = none →
      devMain (some name) none [(name, files)] = [.errorOut, .exitev 1]) := by
  refine ⟨findEntry_eq_findEntrySpec, ?_, ?_, ?_, ?_⟩
  · intro files h
    rw [findEntry_eq_findEntrySpec, findEntrySpec, if_pos h]
  · intro files h
    have hc : ∀ c ∈ candidates, c ∉ files := by
      intro c hc hmem
      have : endsWithMd c = true := by
        fin_cases hc <;> decide
      rw [h c hmem] at this
      exact Bool.false_ne_true this
    rw [findEntry_eq_findEntrySpec, findEntrySpec]
    rw [if_neg (hc _ (by decide)), if_neg (hc _ (by decide)),
      if_neg (hc _ (by decide)), if_neg (hc _ (by decide))]
    exact List.find?_eq_none.mpr fun x hx => by rw [h x hx]; exact Bool.false_ne_true
  · intro e only skip h
    simp [discoverDecks, deckFilter, h]
  · intro name files h
    by_cases hn : name = []
    · subst hn
      rfl
    · simp [devMain, resolvedDeckName, hn, List.lookup, h]

/-- Witness for claim C3 at a concrete directory listing. -/
theorem findEntry_priority_spec_witness :
    findEntry ["index.md".data, "slides.md".data] = some "slides.md".data ∧
    findEntry ["notes.txt".data] = none :=
  ⟨findEntry_priority_spec.2.1 _ (by decide),
   findEntry_priority_spec.2.2.1 _ (by decide)⟩

end KofSlide

namespace KofSlide

theorem buildLoop_all_success (result : Str → Bool) :
    ∀ names : List Str, (∀ n ∈ names, result n = true) →
    buildLoop result names = names.map BEvent.spawn ++ [.writeIndex, .exitev 0] := by
  intro names
  induction names with
  | nil => intro _; rfl
  | cons d ds ih =>
    intro h
    rw [buildLoop, if_pos (h d (by simp)), ih fun n hn => h n (by simp [hn])]
    simp

theorem buildLoop_first_fail (result : Str → Bool) :
    ∀ (names : List Str) (i : Nat) (hi : i < names.length),
    (∀ j (hj : j < names.length), j < i → result (names.get ⟨j, hj⟩) = true) →
    result (names.get ⟨i, hi⟩) = false →
    buildLoop result names =
      ((names.take (i+1)).map BEvent.spawn) ++ [.errorOut, .exitev 1] := by
  intro names
  induction names with
  | nil => intro i hi _ _; simp at hi
  | cons d ds ih =>
    intro i hi hpre hfail
    cases i with
    | zero =>
      simp only [List.get] at hfail
      simp [buildLoop, hfail]
    | succ i' =>
      have h0 : result d = true := hpre 0 (by simp) (Nat.succ_pos i')
      have hrec := ih i' (by simpa using hi)
        (fun j hj hji => hpre (j+1) (by simpa using hj) (Nat.succ_lt_succ hji))
        (by simpa using hfail)
      rw [buildLoop, if_pos h0, hrec]
      simp [List.take_succ_cons]

/-! ## Claim C4: fail-fast batch builds -/

/-- Claim C4 (confirmed): in the batch flow, if the subprocess for the
i-th selected deck exits non-zero (and the earlier ones succeeded), the
run performs exactly the spawns of decks 0..i followed by a diagnostic
and exit 1: dist/index.html is never written, and (deck names being
distinct directory names) no subprocess is spawned for any later deck. -/
theorem batch_fail_fast :
    ∀ (entries : List DirEntry) (only skip : List Str) (result : Str → Bool)
      (i : Nat) (hi : i < (selectedNames only skip entries).length),
    (∀ j (hj : j < (selectedNames only skip entries).length), j < i →
       result ((selectedNames only skip entries).get ⟨j, hj⟩) = true) →
    result ((selectedNames only skip entries).get ⟨i, hi⟩) = false →
    batchMain (some entries) only skip result =
      (((selectedNames only skip entries).take (i+1)).map BEvent.spawn)
        ++ [.errorOut, .exitev 1] ∧
    BEvent.writeIndex ∉ batchMain (some entries) only skip result ∧
    ((selectedNames only skip entries).Nodup →
      ∀ j (hj : j < (selectedNames only skip entries).length), i < j →
        BEvent.spawn ((selectedNames only skip entries).get ⟨j, hj⟩) ∉
          batchMain (some entries) only skip result) := by
  intro entries only skip result i hi hpre hfail
  have hlen : 0 < (selectedNames only skip entries).length :=
    Nat.lt_of_le_of_lt (Nat.zero_le i) hi
  have hdecks : ¬((discoverDecks only skip entries).isEmpty = true) := by
    intro h
    rw [List.isEmpty_iff] at h
    rw [selectedNames, h] at hlen
    simp at hlen
  have hmain : batchMain (some entries) only skip result =
      buildLoop result (selectedNames only skip entries) := by
    simp only [batchMain]
    rw [if_neg hdecks]
    rfl
  have heq := buildLoop_first_fail result _ i hi hpre hfail
  have htrace := hmain.trans heq
  refine ⟨htrace, ?_, ?_⟩
  · rw [htrace]
    intro hmem
    rcases List.mem_append.mp hmem with h | h
    · obtain ⟨x, -, hx⟩ := List.mem_map.mp h
      exact BEvent.noConfusion hx
    · simp at h
  · intro hnodup j hj hij hmem
    rw [htrace] at hmem
    rcases List.mem_append.mp hmem with h | h
    · obtain ⟨x, hx, hxe⟩ := List.mem_map.mp h
      have hxeq : x = (selectedNames only skip entries).get ⟨j, hj⟩ :=
        BEvent.spawn.inj hxe
      subst hxeq
      obtain ⟨k, hk, hke⟩ := List.mem_iff_getElem.mp hx
      rw [List.length_take] at hk
      have hk2 : k < i + 1 := lt_of_lt_of_le hk (min_le_left _ _)
      rw [List.getElem_take, List.get_eq_getElem] at hke
      have hkj : k = j := by simpa using (hnodup.getElem_inj_iff).mp hke
      omega
    · rcases List.mem_cons.mp h with h2 | h2
      · exact BEvent.noConfusion h2
      · rcases List.mem_cons.mp h2 with h3 | h3
        · exact BEvent.noConfusion h3
        · simp at h3

/-- Witness for claim C4: with decks a and b where the build of b fails,
the run spawns a then b, prints a diagnostic and exits 1 without ever
writing the index. -/
theorem batch_fail_fast_witness :
    batchMain
      (some [⟨"a".data, true, ["slides.md".data]⟩,
             ⟨"b".data, true, ["slides.md".data]⟩]) [] []
      (fun n => n == "a".data) =
      [.spawn "a".data, .spawn "b".data, .errorOut, .exitev 1] := by
  have h := (batch_fail_fast
    [⟨"a".data, true, ["slides.md".data]⟩, ⟨"b".data, true, ["slides.md".data]⟩]
    [] [] (fun n => n == "a".data) 1 (by decide) (by decide) (by decide)).1
  rw [h]
  decide

end KofSlide

namespace KofSlide

/-! ## Claim C6: batch exit statuses -/

/-- Claim C6 (confirmed): the batch flow exits 0 when zero decks match
the selection and when every selected deck builds and the index is
written; it exits 1, after a diagnostic on the error stream, when the
base slides directory is missing and when some build fails. -/
theorem batch_exit_codes_spec :
    (∀ (only skip : List Str) (result : Str → Bool),
      batchMain none only skip result = [.errorOut, .exitev 1]) ∧
    (∀ (entries : List DirEntry) (only skip : List Str) (result : Str → Bool),
      discoverDecks only skip entries = [] →
      batchMain (some entries) only skip result = [.exitev 0]) ∧
    (∀ (entries : List DirEntry) (only skip : List Str) (result : Str → Bool),
      discoverDecks only skip entries ≠ [] →
      (∀ d ∈ discoverDecks only skip entries, result d.name = true) →
      batchMain (some entries) only skip result =
        (selectedNames only skip entries).map BEvent.spawn
          ++ [.writeIndex, .exitev 0]) ∧
    (∀ (entries : List DirEntry) (only skip : List Str) (result : Str → Bool)
       (i : Nat) (hi : i < (selectedNames only skip entries).length),
      (∀ j (hj : j < (selectedNames only skip entries).length), j < i →
        result ((selectedNames only skip entries).get ⟨j, hj⟩) = true) →
      result ((selectedNames only skip entries).get ⟨i, hi⟩) = false →
      (batchMain (some entries) only skip result).getLast? = some (.exitev 1) ∧
      BEvent.errorOut ∈ batchMain (some entries) only skip result) := by
  refine ⟨fun _ _ _ => rfl, ?_, ?_, ?_⟩
  · intro entries only skip result h
    simp [batchMain, h]
  · intro entries only skip result hne hall
    have hdecks : ¬((discoverDecks only skip entries).isEmpty = true) := by
      rw [List.isEmpty_iff]
      exact hne
    have hmain : batchMain (some entries) only skip result =
        buildLoop result (selectedNames only skip entries) := by
      simp only [batchMain]
      rw [if_neg hdecks]
      rfl
    rw [hmain]
    apply buildLoop_all_success
    intro n hn
    obtain ⟨d, hd, rfl⟩ := List.mem_map.mp hn
    exact hall d hd
  · intro entries only skip result i hi hpre hfail
    have hlen : 0 < (selectedNames only skip entries).length :=
      Nat.lt_of_le_of_lt (Nat.zero_le i) hi
    have hdecks : ¬((discoverDecks only skip entries).isEmpty = true) := by
      intro h
      rw [List.isEmpty_iff] at h
      rw [selectedNames, h] at hlen
      simp at hlen
    have hmain : batchMain (some entries) only skip result =
        buildLoop result (selectedNames only skip entries) := by
      simp only [batchMain]
      rw [if_neg hdecks]
      rfl
    have htrace := hmain.trans (buildLoop_first_fail result _ i hi hpre hfail)
    constructor
    · rw [htrace,
        show ((selectedNames only skip entries).take (i+1)).map BEvent.spawn
            ++ [BEvent.errorOut, BEvent.exitev 1]
          = (((selectedNames only skip entries).take (i+1)).map BEvent.spawn
            ++ [BEvent.errorOut]) ++ [BEvent.exitev 1] by simp]
      exact List.getLast?_concat _
    · rw [htrace]
      exact List.mem_append.mpr (Or.inr (by simp))

/-- Witness for claim C6 covering all four scenarios at concrete inputs. -/
theorem batch_exit_codes_spec_witness :
    batchMain none [] [] (fun _ => true) = [.errorOut, .exitev 1] ∧
    batchMain (some []) [] [] (fun _ => true) = [.exitev 0] ∧
    batchMain (some [⟨"a".data, true, ["slides.md".data]⟩]) [] []
      (fun _ => true) = [.spawn "a".data, .writeIndex, .exitev 0] ∧
    (batchMain (some [⟨"a".data, true, ["slides.md".data]⟩]) [] []
      (fun _ => false)).getLast? = some (.exitev 1) := by
  refine ⟨batch_exit_codes_spec.1 [] [] _, batch_exit_codes_spec.2.1 [] [] [] _ (by decide), ?_, ?_⟩
  · have h := batch_exit_codes_spec.2.2.1 [⟨"a".data, true, ["slides.md".data]⟩]
      [] [] (fun _ => true) (by decide) (by decide)
    rw [h]
    decide
  · exact (batch_exit_codes_spec.2.2.2 [⟨"a".data, true, ["slides.md".data]⟩]
      [] [] (fun _ => false) 0 (by decide) (by decide) (by decide)).1

end KofSlide

namespace KofSlide

/-! ## Claim C5: dev-flow exit code propagation -/

/-- Claim C5 (code bug): evaluation of the close handler of the dev
script (line 42). An integer child exit code is mirrored exactly, but a
child terminated by a signal reaches the handler with code null, and
`process.exit(null)` exits with the default SUCCESS status 0 — not the
non-success code the specification requires. -/
theorem devExitCode_eval :
    (∀ n : Nat, devExitCode (some n) = n) ∧ devExitCode none = 0 :=
  ⟨fun _ => rfl, rfl⟩

/-! ## Claim C7: index title extraction -/

/-- Claim C7 (counterexample): for a deck named `deck` whose raw entry
text is `# Hi` followed by a final line `title: ` (a title whose value
is whitespace only), the first match of the front-matter pattern
captures whitespace, which trims to the empty string, so the claim says
the displayed title is that (empty) value; the code instead displays
`Hi`, because the empty string is falsy in the chain
`fmTitle || h1 || d.name`. -/
theorem extractTitle_falsy_cex :
    extractTitle "deck".data (some "# Hi\ntitle: ".data) = "Hi".data ∧
    claimTitle "deck".data (some "# Hi\ntitle: ".data) = [] ∧
    extractTitle "deck".data (some "# Hi\ntitle: ".data) ≠
      claimTitle "deck".data (some "# Hi\ntitle: ".data) :=
  ⟨by decide, by decide, by decide⟩

/-- Claim C7 (amended): the displayed title is the trimmed capture of
the first match of the front-matter regex in the raw entry text if that
capture is nonempty, else the trimmed capture of the first heading
match if nonempty, else the directory name — a capture that trims to
empty is falsy and falls through, and the multiline regexes run on the
raw text, where their whitespace classes may span line breaks; a failed
read yields the directory name, and index generation produces one item
per deck regardless of read failures. -/
theorem extractTitle_amended_spec :
    (∀ name : Str, extractTitle name none = name) ∧
    (∀ name raw v : Str, fmScan raw true = some v → v ≠ [] →
      extractTitle name (some raw) = v) ∧
    (∀ name raw hd : Str, (fmScan raw true).getD [] = [] →
      h1Scan raw true = some hd → hd ≠ [] →
      extractTitle name (some raw) = hd) ∧
    (∀ name raw : Str, (fmScan raw true).getD [] = [] →
      (h1Scan raw true).getD [] = [] →
      extractTitle name (some raw) = name) ∧
    (∀ (decks : List Deck) (reader : Str → Option Str),
      (generateItems decks reader).length = decks.length) := by
  refine ⟨fun _ => rfl, ?_, ?_, ?_, ?_⟩
  · intro name raw v hfm hv
    simp [extractTitle, hfm, jsStrOr, hv]
  · intro name raw hd hfm hh1 hne
    simp [extractTitle, hfm, hh1, jsStrOr, hne]
  · intro name raw hfm hh1
    simp [extractTitle, hfm, hh1, jsStrOr]
  · intro decks reader
    simp [generateItems]

/-- Witness for the amended claim C7 at concrete entry documents. -/
theorem extractTitle_amended_spec_witness :
    extractTitle "deck".data (some "title: X".data) = "X".data ∧
    extractTitle "deck".data (some "# Hi\ntitle: ".data) = "Hi".data :=
  ⟨extractTitle_amended_spec.2.1 "deck".data "title: X".data "X".data
      (by decide) (by decide),
   extractTitle_amended_spec.2.2.1 "deck".data "# Hi\ntitle: ".data
      "Hi".data (by decide) (by decide) (by decide)⟩

/-! ## Claim C8: dev-flow configuration errors -/

/-- Claim C8 (confirmed): each dev-flow configuration error — missing
deck name (no argument and no environment fallback), missing deck
directory, missing entry file — produces exactly a diagnostic followed
by exit 1, and in particular no subprocess is ever spawned. -/
theorem dev_config_error_spec :
    ∀ (argv2 envDeck : Option Str) (fs : List (Str × List Str)),
    ((resolvedDeckName argv2 envDeck = none ∨
        resolvedDeckName argv2 envDeck = some []) →
      devMain argv2 envDeck fs = [.errorOut, .exitev 1]) ∧
    (∀ name : Str, resolvedDeckName argv2 envDeck = some name →
      fs.lookup name = none →
      devMain argv2 envDeck fs = [.errorOut, .exitev 1]) ∧
    (∀ (name : Str) (files : List Str),
      resolvedDeckName argv2 envDeck = some name →
      fs.lookup name = some files → findEntry files = none →
      devMain argv2 envDeck fs = [.errorOut, .exitev 1]) := by
  intro argv2 envDeck fs
  refine ⟨?_, ?_, ?_⟩
  · rintro (h | h) <;> simp [devMain, h]
  · intro name h hl
    by_cases hn : name = [] <;> simp [devMain, h, hn, hl]
  · intro name files h hl hf
    by_cases hn : name = [] <;> simp [devMain, h, hn, hl, hf]

/-- Witness for claim C8: the three configuration errors at concrete
inputs. -/
theorem dev_config_error_spec_witness :
    devMain none none [] = [.errorOut, .exitev 1] ∧
    devMain (some "a".data) none [] = [.errorOut, .exitev 1] ∧
    devMain (some "a".data) none [("a".data, ["x.txt".data])] =
      [.errorOut, .exitev 1] :=
  ⟨(dev_config_error_spec none none []).1 (Or.inl rfl),
   (dev_config_error_spec (some "a".data) none []).2.1 "a".data
      (by decide) (by decide),
   (dev_config_error_spec (some "a".data) none [("a".data, ["x.txt".data])]).2.2
      "a".data ["x.txt".data] (by decide) (by decide) (by decide)⟩

/-! ## Claim C9: NODE_OPTIONS heap hint -/

/-- Claim C9 (counterexample): when the invoking environment defines
NODE_OPTIONS as the empty string, the code does not preserve that value:
the empty string is falsy, so the child receives the default heap hint
instead. -/
theorem childNodeOptions_preserve_cex :
    childNodeOptions (some []) = defaultNodeOptions ∧
    childNodeOptions (some []) ≠ ([] : Str) :=
  ⟨rfl, by decide⟩

/-- Claim C9 (amended): every batch build spawns the child with
NODE_OPTIONS set to the default heap hint when the invoking environment
leaves it unset or empty, and preserves the invoking environment value
unchanged whenever that value is nonempty. -/
theorem childNodeOptions_amended_spec :
    ∀ parent : Option Str,
    ((parent = none ∨ parent = some []) →
      childNodeOptions parent = defaultNodeOptions) ∧
    (∀ v : Str, parent = some v → v ≠ [] → childNodeOptions parent = v) := by
  intro parent
  constructor
  · rintro (h | h) <;> simp [childNodeOptions, h]
  · intro v h hv
    simp [childNodeOptions, h, hv]

/-- Witness for the amended claim C9. -/
theorem childNodeOptions_amended_spec_witness :
    childNodeOptions none = defaultNodeOptions ∧
    childNodeOptions (some "--max-old-space-size=8192".data) =
      "--max-old-space-size=8192".data :=
  ⟨(childNodeOptions_amended_spec none).1 (Or.inl rfl),
   (childNodeOptions_amended_spec (some "--max-old-space-size=8192".data)).2
      "--max-old-space-size=8192".data rfl (by decide)⟩

/-! ## Claim C10: hidden names are filtered only in batch discovery -/

/-- Claim C10 (confirmed): a deck directory whose name starts with `.`
or `_` never appears in the batch build set, yet the dev flow accepts
exactly that name and spawns the renderer for its resolved entry. -/
theorem hidden_decks_dev_only_spec :
    ∀ (name : Str) (files : List Str) (entries : List DirEntry)
      (only skip : List Str),
    (name.head? = some '.' ∨ name.head? = some '_') →
    (∀ d ∈ discoverDecks only skip entries, d.name ≠ name) ∧
    (∀ e : Str, findEntry files = some e →
      devMain (some name) none [(name, files)] = [.spawn e]) := by
  intro name files entries only skip hhead
  constructor
  · intro d hd hEq
    simp only [discoverDecks, List.mem_map, List.mem_filter] at hd
    obtain ⟨e, ⟨-, hf⟩, rfl⟩ := hd
    simp only [deckFilter, Bool.and_eq_true] at hf
    obtain ⟨⟨⟨⟨⟨-, hdot⟩, hund⟩, -⟩, -⟩, -⟩ := hf
    rcases hhead with hh | hh
    · rw [show (⟨e.name, findEntry e.files⟩ : Deck).name = e.name from rfl] at hEq
      rw [hEq, hh] at hdot
      simp at hdot
    · rw [show (⟨e.name, findEntry e.files⟩ : Deck).name = e.name from rfl] at hEq
      rw [hEq, hh] at hund
      simp at hund
  · intro e he
    have hn : name ≠ [] := by
      rcases hhead with hh | hh <;> (intro hnil; rw [hnil] at hh; simp at hh)
    simp [devMain, resolvedDeckName, hn, List.lookup, he]

/-- Witness for claim C10: the hidden deck name `_draft` is served by
the dev flow. -/
theorem hidden_decks_dev_only_spec_witness :
    devMain (some "_draft".data) none [("_draft".data, ["slides.md".data])] =
      [.spawn "slides.md".data] :=
  (hidden_decks_dev_only_spec "_draft".data ["slides.md".data] [] [] []
    (Or.inr (by decide))).2 "slides.md".data (by decide)

end KofSlide

